/-
Verification of the CoinMoa reconciliation and normalization core
(archive/Lighter legacy pipeline): shallow embedding of the initial-capital
inference engine, profit reporter, trade/transfer normalizers, the
deduplicator and the API coverage guard, with theorems settling the
specification claims. Python floats are modelled as rationals; raw JSON-ish
field values are modelled by an explicit value type with Python truthiness
and str() rendering.
-/
import Mathlib

/-- Running cumulative sums of a list starting from the accumulator acc:
the model of pandas Series.cumsum walked left to right. -/
def cumsumFrom (acc : ℚ) : List ℚ → List ℚ
  | [] => []
  | x :: xs => (acc + x) :: cumsumFrom (acc + x) xs

/-- Running cumulative sums of a list (pandas cumsum). -/
def cumsum (l : List ℚ) : List ℚ := cumsumFrom 0 l

/-- Minimum of the running cumulative sums (pandas running.min());
0 for an empty column, matching the guarded use sites. -/
def minRunning (signed : List ℚ) : ℚ :=
  match cumsum signed with
  | [] => 0
  | x :: xs => xs.foldl min x

/-- Model of the exposure proxy of legacy/reports.py infer_initial_capital:
max_capital_proxy = float(abs(running.min())) if len(running) else 0.0,
where running is the cumulative sum of the signed_quote_value column
(missing values already coerced to 0 in the model input). -/
def maxCapitalProxy (signed : List ℚ) : ℚ :=
  match cumsum signed with
  | [] => 0
  | x :: xs => |xs.foldl min x|

/-- Result record of infer_initial_capital (dataclass
InitialCapitalInference of legacy/reports.py). -/
structure InitialCapitalInference where
  estimatedBeginningEquity : ℚ
  method : String
  confidence : String
  caveats : List String

/-- Caveat appended when reconciliation yields a negative estimate. -/
def caveatNegativeRecon : String :=
  "Reconciliation produced negative beginning equity; replaced with max-exposure proxy."

/-- Caveat appended when no explicit deposits or withdrawals were found. -/
def caveatNoDeposits : String :=
  "No explicit deposits/withdrawals found; initial capital estimate has high uncertainty."

/-- Caveat reporting the observed exposure proxy (the numeric rendering of
the proxy in the Python f-string is omitted from the model; no claim reads
the caveat text, only whether the list is empty). -/
def caveatProxyObserved : String :=
  "Max signed-quote exposure proxy observed."

/-- Model of legacy/reports.py infer_initial_capital: reconciliation
estimate with the max-exposure fallback, graded by method and confidence.
The signed argument is the signed_quote_value column of the unified table
(non-numeric entries already coerced to 0). -/
def inferInitialCapital (signed : List ℚ)
    (endingEquity netDeposits netPnlComponents : ℚ) : InitialCapitalInference :=
  let reconEstimate := endingEquity - netDeposits - netPnlComponents
  let proxy := maxCapitalProxy signed
  let r1 : InitialCapitalInference :=
    if reconEstimate < 0 then
      ⟨proxy, "max_exposure_proxy", "low", [caveatNegativeRecon]⟩
    else
      ⟨reconEstimate, "reconciliation", "medium", []⟩
  let r2 : InitialCapitalInference :=
    if netDeposits = 0 then
      if proxy > r1.estimatedBeginningEquity then
        ⟨proxy, "max_exposure_proxy", "low", r1.caveats ++ [caveatNoDeposits]⟩
      else
        ⟨r1.estimatedBeginningEquity, r1.method, r1.confidence,
          r1.caveats ++ [caveatNoDeposits]⟩
    else r1
  if proxy > 0 then
    ⟨r2.estimatedBeginningEquity, r2.method, r2.confidence,
      r2.caveats ++ [caveatProxyObserved]⟩
  else r2

/-- A loosely typed raw API field value, as Python sees it: absent (None),
a string, an integer or a boolean. -/
inductive PyVal where
  | vnull : PyVal
  | vstr (v : String) : PyVal
  | vint (v : Int) : PyVal
  | vbool (v : Bool) : PyVal
deriving DecidableEq

/-- Python truthiness of a raw value: None, the empty string, 0 and False
are falsy. -/
def PyVal.truthy : PyVal → Bool
  | .vnull => false
  | .vstr v => v != ""
  | .vint v => v != 0
  | .vbool v => v

/-- Python str() rendering of a raw value. -/
def PyVal.pyStr : PyVal → String
  | .vnull => "None"
  | .vstr v => v
  | .vint v => toString v
  | .vbool true => "True"
  | .vbool false => "False"

/-- Python `a or b`: the first operand when truthy, otherwise the second. -/
def pyOr (a b : PyVal) : PyVal := if a.truthy then a else b

/-- Model of a Python ordered-fallback numeric lookup
`to_float(raw.get(k1) or raw.get(k2) or ...)`: the first present nonzero
value wins (zero and absent values are falsy and are skipped); when the
chain is exhausted the result is 0, matching the to_float default on a falsy
final operand. Raw numeric fields are modelled as already-parsed rationals
(absent = none). -/
def qOrChain : List (Option ℚ) → ℚ
  | [] => 0
  | none :: rest => qOrChain rest
  | some v :: rest => if v = 0 then qOrChain rest else v

/-- ASCII lowercase of a character (the character map of Python
str.lower() over the ASCII range the keywords of the source live in). -/
def lowerChar (c : Char) : Char :=
  if 'A' ≤ c ∧ c ≤ 'Z' then Char.ofNat (c.toNat + 32) else c

/-- ASCII lowercase of a string (Python str.lower() on the ASCII
keywords the source compares). -/
def strLower (s : String) : String := String.mk (s.data.map lowerChar)

/-- Whether the char list starts with the given char sequence. -/
def charStarts : List Char → List Char → Bool
  | _, [] => true
  | [], _ :: _ => false
  | a :: as, b :: bs => a == b && charStarts as bs

/-- Whether the char list holds the given char sequence somewhere. -/
def charHasSeq : List Char → List Char → Bool
  | [], needle => needle.isEmpty
  | a :: as, needle => charStarts (a :: as) needle || charHasSeq as needle

/-- Substring test on strings (Python `needle in hay`). -/
def strHasSub (hay needle : String) : Bool :=
  charHasSeq hay.data needle.data

/-- Case-insensitive substring test
(pandas str.contains(needle, case=False, regex=False)). -/
def strContainsCI (hay needle : String) : Bool :=
  charHasSeq (strLower hay).data (strLower needle).data

/-- A raw trade record as extractors/trades.py _normalize_trade and
_resolve_side read it: the side and account-index fields are loosely typed
raw values; numeric fields are modelled as already-parsed rationals, with
none for an absent field (to_float turns an absent or unparseable field
into its default, which every use site sets to 0). -/
structure RawTrade where
  side : PyVal := .vnull
  direction : PyVal := .vnull
  trade_side : PyVal := .vnull
  is_taker_ask : PyVal := .vnull
  taker_account_index : PyVal := .vnull
  maker_account_index : PyVal := .vnull
  size : Option ℚ := none
  quantity : Option ℚ := none
  filled_size : Option ℚ := none
  price : Option ℚ := none
  notional : Option ℚ := none
  quote_qty : Option ℚ := none
  maker_fee : Option ℚ := none
  taker_fee : Option ℚ := none
  fee : Option ℚ := none
  fee_usd : Option ℚ := none

/-- The lowered explicit side string of a raw trade:
str(raw.get("side") or raw.get("direction") or raw.get("trade_side") or "").lower(). -/
def explicitSideStr (raw : RawTrade) : String :=
  strLower (pyOr raw.side (pyOr raw.direction (pyOr raw.trade_side (PyVal.vstr "")))).pyStr

/-- The side of the taker as _resolve_side reads the is_taker_ask flag:
str(flag).lower() in {1, true} means the taker sold, in {0, false} the
taker bought, anything else does not resolve. -/
def takerSideOf (raw : RawTrade) : Option String :=
  let flag := strLower raw.is_taker_ask.pyStr
  if flag == "1" || flag == "true" then some "sell"
  else if flag == "0" || flag == "false" then some "buy"
  else none

/-- Model of extractors/trades.py _resolve_side: explicit side fields
first, then the taker/maker relationship via is_taker_ask; account-index
fields pass through Python `or ""` so a falsy index (absent, 0 or empty)
renders as the empty string and never matches. -/
def resolveSide (raw : RawTrade) (accountIndex : Int) : String :=
  let s := explicitSideStr raw
  if s == "b" || s == "bid" then "buy"
  else if s == "s" || s == "ask" then "sell"
  else if s == "buy" || s == "sell" then s
  else
    match takerSideOf raw with
    | none => "unknown"
    | some takerSide =>
      let takerIdx := (pyOr raw.taker_account_index (PyVal.vstr "")).pyStr
      let makerIdx := (pyOr raw.maker_account_index (PyVal.vstr "")).pyStr
      let me := toString accountIndex
      if takerIdx != "" && takerIdx == me then takerSide
      else if makerIdx != "" && makerIdx == me then
        (if takerSide == "sell" then "buy" else "sell")
      else takerSide

/-- The side resolver as the specification words it, for comparison with
resolveSide: identical explicit-side and is_taker_ask handling, but the
local account is the taker (or the maker) exactly when its index renders
equal to the recorded taker (or maker) index, with no truthiness guard. -/
def resolveSideSpec (raw : RawTrade) (accountIndex : Int) : String :=
  let s := explicitSideStr raw
  if s == "b" || s == "bid" then "buy"
  else if s == "s" || s == "ask" then "sell"
  else if s == "buy" || s == "sell" then s
  else
    match takerSideOf raw with
    | none => "unknown"
    | some takerSide =>
      let me := toString accountIndex
      if raw.taker_account_index.pyStr == me then takerSide
      else if raw.maker_account_index.pyStr == me then
        (if takerSide == "sell" then "buy" else "sell")
      else takerSide

/-- Normalized trade fields of _normalize_trade that the claims read;
timestamp parsing, market-symbol resolution, funding, realized pnl,
liquidation detection and provenance are not referenced by any claim and
are omitted from the model. -/
structure NormTrade where
  side : String
  price : ℚ
  size : ℚ
  notionalQuote : ℚ
  feeQuote : ℚ

/-- Raw size: to_float(raw.get("size") or raw.get("quantity") or raw.get("filled_size"), default=0.0). -/
def tradeSize (raw : RawTrade) : ℚ :=
  qOrChain [raw.size, raw.quantity, raw.filled_size]

/-- Raw price: to_float(raw.get("price"), default=0.0). -/
def tradePrice (raw : RawTrade) : ℚ := qOrChain [raw.price]

/-- Notional with the fallback abs(size * price) when the explicit notional
is zero and size and price are both nonzero (Python float truthiness). -/
def tradeNotional (raw : RawTrade) : ℚ :=
  let n := qOrChain [raw.notional, raw.quote_qty]
  if n = 0 ∧ tradeSize raw ≠ 0 ∧ tradePrice raw ≠ 0 then
    |tradeSize raw * tradePrice raw|
  else n

/-- Maker fee in basis points: to_float(raw.get("maker_fee"), default=0.0). -/
def makerFeeBps (raw : RawTrade) : ℚ := qOrChain [raw.maker_fee]

/-- Taker fee in basis points: to_float(raw.get("taker_fee"), default=0.0). -/
def takerFeeBps (raw : RawTrade) : ℚ := qOrChain [raw.taker_fee]

/-- Explicit fee: to_float(raw.get("fee") or raw.get("fee_usd"), default=0.0). -/
def explicitFee (raw : RawTrade) : ℚ := qOrChain [raw.fee, raw.fee_usd]

/-- Fee computation of _normalize_trade: the explicit fee wins when
nonzero; otherwise, for nonzero notional, notional * bps / 10000 with the
taker bps when the resolved side is buy or sell and the maker bps
otherwise, and only when the selected bps is itself nonzero. -/
def tradeFeeQuote (raw : RawTrade) (accountIndex : Int) : ℚ :=
  if explicitFee raw = 0 ∧ tradeNotional raw ≠ 0 then
    let bps := if resolveSide raw accountIndex == "buy" ||
        resolveSide raw accountIndex == "sell" then takerFeeBps raw else makerFeeBps raw
    if bps ≠ 0 then tradeNotional raw * bps / 10000 else explicitFee raw
  else explicitFee raw

/-- Model of _normalize_trade restricted to the claim-relevant fields:
side, price, absolute size, absolute notional and the fee. -/
def normalizeTrade (raw : RawTrade) (accountIndex : Int) : NormTrade :=
  ⟨resolveSide raw accountIndex, tradePrice raw, |tradeSize raw|,
    |tradeNotional raw|, tradeFeeQuote raw accountIndex⟩

/-- A pubdata block of a raw transfer record (l1_deposit_pubdata_v2,
l1_withdraw_pubdata_v2 or l2_transfer_pubdata_v2), with its two candidate
amount fields. -/
structure PubBlock where
  accepted_amount : Option ℚ := none
  amount : Option ℚ := none

/-- A raw transfer record as extractors/transfers.py _normalize and
_pick_amount read it; numeric fields are already-parsed rationals
(none = absent), type fields are loosely typed raw values. The field typ
models the raw key named type. -/
structure RawTransfer where
  amount : Option ℚ := none
  accepted_amount : Option ℚ := none
  usdc_amount : Option ℚ := none
  value : Option ℚ := none
  l1_deposit : Option PubBlock := none
  l1_withdraw : Option PubBlock := none
  l2_transfer : Option PubBlock := none
  tx_type : PyVal := .vnull
  typ : PyVal := .vnull

/-- The candidate amount fields of a pubdata block in the order
_pick_amount scans them (accepted_amount then amount); an absent block
contributes nothing. -/
def blockAmountFields : Option PubBlock → List (Option ℚ)
  | none => []
  | some b => [b.accepted_amount, b.amount]

/-- Every candidate amount value of a raw transfer in the order
_pick_amount scans them: the four direct keys, then the three pubdata
blocks. -/
def amountCandidates (raw : RawTransfer) : List (Option ℚ) :=
  [raw.amount, raw.accepted_amount, raw.usdc_amount, raw.value] ++
    blockAmountFields raw.l1_deposit ++ blockAmountFields raw.l1_withdraw ++
    blockAmountFields raw.l2_transfer

/-- Model of _pick_amount: the first nonzero candidate amount, taken
unchanged (zero or absent candidates are skipped; 0 when none is left). -/
def pickAmount (raw : RawTransfer) : ℚ := qOrChain (amountCandidates raw)

/-- Model of the event-type classification of _normalize:
tx_type = str(raw.get("tx_type") or raw.get("type") or fallback).lower(),
then substring dispatch on deposit / withdraw / transfer with the
caller-supplied fallback for anything else. -/
def transferEventType (txType typField : PyVal) (fallback : String) : String :=
  let t := strLower (pyOr txType (pyOr typField (PyVal.vstr fallback))).pyStr
  if strHasSub t "deposit" then "deposit"
  else if strHasSub t "withdraw" then "withdraw"
  else if strHasSub t "transfer" then "transfer"
  else fallback

/-- Normalized transfer fields of _normalize that the claims read
(event_type and amount_quote); timestamp, asset, fee, tx_hash and
provenance are not referenced by any claim and are omitted. -/
structure TransferNorm where
  eventType : String
  amountQuote : ℚ

/-- Model of _normalize restricted to the claim-relevant fields. -/
def normalizeTransfer (raw : RawTransfer) (fallback : String) : TransferNorm :=
  ⟨transferEventType raw.tx_type raw.typ fallback, pickAmount raw⟩

/-- A row of the trades table as fetch_trades and transform.py use it:
the dedup-key columns plus the cashflow columns the exposure proxy of
infer_initial_deposit_if_missing reads. Timestamps are modelled as
integers (epoch instants); rows are assumed given in chronological order
where the source sorts by timestamp. -/
structure TradeRow where
  timestamp : Int
  side : String
  market : String
  size : ℚ
  price : ℚ
  txHash : String
  notionalQuote : ℚ := 0
  feeQuote : ℚ := 0
  fundingQuote : ℚ := 0

/-- A row of the transfers table with its dedup-key columns. -/
structure TransferRow where
  timestamp : Int
  eventType : String
  asset : String
  amountQuote : ℚ
  txHash : String

/-- A row of the balance-snapshot table with its dedup-key columns. -/
structure BalanceRow where
  timestamp : Int
  totalAssetValue : ℚ
  collateral : ℚ
  source : String

/-- The dedup key of fetch_trades:
(timestamp, side, market, size, price, tx_hash). -/
def tradeKey (t : TradeRow) : Int × String × String × ℚ × ℚ × String :=
  (t.timestamp, t.side, t.market, t.size, t.price, t.txHash)

/-- The dedup key of fetch_transfers:
(timestamp, event_type, asset, amount_quote, tx_hash). -/
def transferKey (x : TransferRow) : Int × String × String × ℚ × String :=
  (x.timestamp, x.eventType, x.asset, x.amountQuote, x.txHash)

/-- The dedup key of fetch_balance_history:
(timestamp, total_asset_value_quote, collateral_quote, source). -/
def balanceKey (b : BalanceRow) : Int × ℚ × ℚ × String :=
  (b.timestamp, b.totalAssetValue, b.collateral, b.source)

/-- Model of pandas drop_duplicates(subset=key, keep="last"): a row is
kept exactly when no later row carries the same key, and kept rows stay
in their original relative order. -/
def dedupKeepLast {α κ : Type} [DecidableEq κ] (key : α → κ) : List α → List α
  | [] => []
  | x :: xs =>
    if ∃ y ∈ xs, key y = key x then dedupKeepLast key xs
    else x :: dedupKeepLast key xs

/-- The signed trading cashflow column built by
infer_initial_deposit_if_missing: sign from the side (buy -1, sell +1,
anything else 0) times the notional, minus the fee, plus the funding. -/
def tradeSign (side : String) : ℚ :=
  if side == "buy" then -1 else if side == "sell" then 1 else 0

/-- The signed cashflow series of a trades table (rows in chronological
order, as the source sorts them before the walk). -/
def signedCashflow (trades : List TradeRow) : List ℚ :=
  trades.map (fun t => tradeSign t.side * t.notionalQuote - t.feeQuote + t.fundingQuote)

/-- Model of the exposure proxy of transform.py
infer_initial_deposit_if_missing: max(0, -(running.min())) of the running
cumulative signed cashflow, 0 for an empty trades table. -/
def exposureProxyTransform (trades : List TradeRow) : ℚ :=
  if trades.isEmpty then 0
  else
    match cumsum (signedCashflow trades) with
    | [] => 0
    | x :: xs => max 0 (-(xs.foldl min x))

/-- A row of the unified event table as build_profit_report reads it.
Column names follow the source: pair models the Korean pair column and
typeKr the Korean type column of the unified schema; numeric columns are
already coerced (non-numeric entries are 0, as pd.to_numeric(...,
errors="coerce").fillna(0.0) makes them). The timestamp-derived columns
(date and month) feed only the daily and monthly breakdowns, which no
claim reads, and are omitted. -/
structure URow where
  eventGroup : String := ""
  eventSubtype : String := ""
  quoteValue : ℚ := 0
  signedQuoteValue : ℚ := 0
  feeUsd : ℚ := 0
  fundingUsd : ℚ := 0
  quantity : ℚ := 0
  pair : String := ""
  typeKr : String := ""
  isAirdrop : Bool := false

/-- The loosely typed balance snapshot, reduced to the three fields
build_profit_report reads through _safe_float (absent or unparseable
fields are already 0 in the model). -/
structure SnapshotInput where
  realizedPnl : ℚ
  unrealizedPnl : ℚ
  endingEquity : ℚ

/-- Sum of a rational column over a list of rows. -/
def sumBy {α : Type} (f : α → ℚ) (rows : List α) : ℚ := (rows.map f).sum

/-- The transfer rows of the unified table (event_group == "transfer"). -/
def transferRowsOf (rows : List URow) : List URow :=
  rows.filter (fun r => r.eventGroup == "transfer")

/-- Net deposits of build_profit_report: the quote-value sum of deposit
transfer rows minus that of withdraw transfer rows. -/
def netDeposits (rows : List URow) : ℚ :=
  sumBy (·.quoteValue) ((transferRowsOf rows).filter (fun r => r.eventSubtype == "deposit")) -
    sumBy (·.quoteValue) ((transferRowsOf rows).filter (fun r => r.eventSubtype == "withdraw"))

/-- Fees plus funding as a net cost:
-(sum of fee_usd + sum of funding_usd) over the whole unified table. -/
def feesPlusFunding (rows : List URow) : ℚ :=
  -(sumBy (·.feeUsd) rows + sumBy (·.fundingUsd) rows)

/-- The token-sell mask of _token_sell_summary: the pair column holds the
token keyword (case-insensitively), the event subtype is trade or
liquidation, and the Korean type column says sell. -/
def isTokenSell (kw : String) (r : URow) : Bool :=
  strContainsCI r.pair kw && (r.eventSubtype == "trade" || r.eventSubtype == "liquidation") &&
    r.typeKr == "매도"

/-- Token quantity sold (sum over the token-sell rows). -/
def tokenSoldQty (rows : List URow) (kw : String) : ℚ :=
  sumBy (·.quantity) (rows.filter (isTokenSell kw))

/-- Token sale proceeds (quote-value sum over the token-sell rows). -/
def tokenSaleProceeds (rows : List URow) (kw : String) : ℚ :=
  sumBy (·.quoteValue) (rows.filter (isTokenSell kw))

/-- Token sales pnl of _token_sell_summary: the proceeds, under the
zero-cost-basis assumption of the source. -/
def tokenSalesPnl (rows : List URow) (kw : String) : ℚ := tokenSaleProceeds rows kw

/-- Net pnl components fed into infer_initial_capital: realized plus
unrealized plus net fees and funding plus token-sale pnl. -/
def pnlComponents (rows : List URow) (snap : SnapshotInput) (kw : String) : ℚ :=
  snap.realizedPnl + snap.unrealizedPnl + feesPlusFunding rows + tokenSalesPnl rows kw

/-- The initial-capital inference build_profit_report performs on the
unified table and the snapshot. -/
def reportInit (rows : List URow) (snap : SnapshotInput) (kw : String) : InitialCapitalInference :=
  inferInitialCapital (rows.map (·.signedQuoteValue)) snap.endingEquity
    (netDeposits rows) (pnlComponents rows snap kw)

/-- The reconciliation ledger of build_profit_report: the ordered values
of the recon_table entries BeginningEquity(estimated), +NetDeposits,
+RealizedPnL, +UnrealizedPnL, +TokenSalesPnL, +FeesFunding(net) and
=EndingEquity. -/
structure ReconLedger where
  beginningEquity : ℚ
  netDeposits : ℚ
  realizedPnl : ℚ
  unrealizedPnl : ℚ
  tokenSalesPnl : ℚ
  feesFunding : ℚ
  endingEquity : ℚ

/-- The profit-report output restricted to what the claims read: the
reconciliation ledger, the inference record and the total profit. The
daily and monthly breakdowns and the airdrop lists are presentation no
claim touches. -/
structure ProfitReport where
  recon : ReconLedger
  init : InitialCapitalInference
  totalProfit : ℚ

/-- Model of legacy/reports.py build_profit_report (the claim-relevant
outputs). -/
def buildProfitReport (rows : List URow) (snap : SnapshotInput) (kw : String) : ProfitReport :=
  let init := reportInit rows snap kw
  { recon :=
      ⟨init.estimatedBeginningEquity, netDeposits rows, snap.realizedPnl,
        snap.unrealizedPnl, tokenSalesPnl rows kw, feesPlusFunding rows,
        snap.endingEquity⟩
    init := init
    totalProfit := snap.endingEquity - init.estimatedBeginningEquity }

/-- The sum of the reconciliation-ledger value sequence up to (and
excluding) the =EndingEquity entry. -/
def reconSum (r : ReconLedger) : ℚ :=
  r.beginningEquity + r.netDeposits + r.realizedPnl + r.unrealizedPnl +
    r.tokenSalesPnl + r.feesFunding

/-- An endpoint fetch outcome (dataclass EndpointStatus of the api
client). -/
structure EndpointStatus where
  name : String
  success : Bool
  records : Nat
  error : String

/-- The structured details _ensure_api_coverage raises with: missing and
failed core endpoint names and the transfer and trade row counts. -/
structure CoverageError where
  missingCoreStatus : List String
  failedCoreEndpoints : List String
  transfersRows : Nat
  tradesRows : Nat

/-- The core endpoints of main.py _ensure_api_coverage. -/
def coreEndpoints : List String :=
  ["trades", "deposit/history", "withdraw/history", "l1Metadata"]

/-- Lookup by_name[n]: the Python dict comprehension keeps the last
status with a given name, so the lookup is the last matching entry. -/
def byName (statuses : List EndpointStatus) (n : String) : Option EndpointStatus :=
  (statuses.filter (fun s => s.name == n)).getLast?

/-- Core endpoints never attempted (no status with that name). -/
def missingCore (statuses : List EndpointStatus) : List String :=
  coreEndpoints.filter (fun n => (byName statuses n).isNone)

/-- Core endpoints attempted but failed. -/
def failedCore (statuses : List EndpointStatus) : List String :=
  coreEndpoints.filter (fun n =>
    match byName statuses n with
    | some s => !s.success
    | none => false)

/-- Core endpoints that were attempted at all. -/
def attemptedCore (statuses : List EndpointStatus) : List String :=
  coreEndpoints.filter (fun n => (byName statuses n).isSome)

/-- Model of main.py _ensure_api_coverage: some error aborts the run,
none proceeds. The transfer and trade tables enter the source function
only through emptiness and length, so the model takes their row counts. -/
def ensureApiCoverage (statuses : List EndpointStatus)
    (transfersRows tradesRows : Nat) : Option CoverageError :=
  let missing := missingCore statuses
  let failed := failedCore statuses
  let noData := transfersRows = 0 ∧ tradesRows = 0
  let allCoreFailed := failed.length = (attemptedCore statuses).length
  if missing ≠ [] ∨ (noData ∧ allCoreFailed) then
    some ⟨missing, failed, transfersRows, tradesRows⟩
  else none

/-- Boundary scenario of the coverage claim: the core endpoint trades
succeeded with records, every other core endpoint was attempted and
failed. -/
def coverageOkStatuses : List EndpointStatus :=
  [⟨"trades", true, 5, ""⟩, ⟨"deposit/history", false, 0, "http 500"⟩,
    ⟨"withdraw/history", false, 0, "http 500"⟩, ⟨"l1Metadata", false, 0, "http 500"⟩]

/-- Boundary scenario of the coverage claim: every core endpoint was
attempted and failed. -/
def coverageAllFailedStatuses : List EndpointStatus :=
  [⟨"trades", false, 0, "http 500"⟩, ⟨"deposit/history", false, 0, "http 500"⟩,
    ⟨"withdraw/history", false, 0, "http 500"⟩, ⟨"l1Metadata", false, 0, "http 500"⟩]

/-- Unified table of the C1 counterexample: one deposit transfer row of
quote value 1000 (signed quote value 0, as transfer rows carry no trading
cashflow). -/
def c1CexRows : List URow :=
  [{ eventGroup := "transfer", eventSubtype := "deposit", quoteValue := 1000,
     typeKr := "입금" }]

/-- Balance snapshot of the C1 counterexample: zero realized and
unrealized pnl and ending equity 0. -/
def c1CexSnap : SnapshotInput := ⟨0, 0, 0⟩

/-- Balance snapshot of the C1 witness: ending equity 50 with no pnl,
driving the reconciliation method. -/
def c1WitSnap : SnapshotInput := ⟨0, 0, 50⟩

/-- Raw trade of the C5 counterexample: no explicit side, taker bought
(is_taker_ask False), maker account index 0 — a falsy index Python
collapses to the empty string. -/
def c5CexRaw : RawTrade :=
  { is_taker_ask := .vbool false, maker_account_index := .vint 0 }

/-- Raw trade of the C8 counterexample: the local account is the maker
(maker index 7), the taker bought, no explicit fee, notional 100, taker
fee 10 bps, maker fee 5 bps. -/
def c8CexRaw : RawTrade :=
  { is_taker_ask := .vbool false, maker_account_index := .vint 7,
    notional := some 100, maker_fee := some 5, taker_fee := some 10 }

/-- Raw trade of the C8 witness: taker-side default (no index matches),
no explicit fee, notional 100, taker fee 10 bps. -/
def c8WitRaw : RawTrade :=
  { is_taker_ask := .vbool false, notional := some 100, taker_fee := some 10 }

/-- Raw transfer of the C9 counterexample: a deposit whose raw amount
field is -5. -/
def c9CexRaw : RawTransfer :=
  { amount := some (-5), tx_type := .vstr "deposit" }

/-- A lower bound shared by the seed and every list element bounds the
folded minimum from below. -/
theorem foldlMinLowerBound (xs : List ℚ) :
    ∀ x : ℚ, 0 ≤ x → (∀ y ∈ xs, 0 ≤ y) → 0 ≤ xs.foldl min x := by
  induction xs with
  | nil => intro x hx _; simpa using hx
  | cons a xs ih =>
    intro x hx hall
    have ha : 0 ≤ a := hall a (List.mem_cons_self a xs)
    simpa using ih (min x a) (le_min hx ha) (fun y hy => hall y (List.mem_cons_of_mem a hy))

/-- Claim C2, corrected. The legacy inference engine infer_initial_capital
computes its exposure proxy as the absolute value of the minimum running
cumulative sum (so the proxy equals the minimum itself, not 0, whenever
the running sum never dips below 0); it coincides with the claimed
max(0, -min(running_sum)) exactly on inputs whose minimum running sum is
at most 0. The claimed formula, with the claimed sign convention, is the
one computed by infer_initial_deposit_if_missing in transform.py, whose
proxy is 0 whenever the running cashflow sum never becomes negative. -/
theorem C2_exposure_proxy_amended (signed : List ℚ) :
    (signed ≠ [] →
      maxCapitalProxy signed = |minRunning signed| ∧
      (minRunning signed ≤ 0 →
        maxCapitalProxy signed = max 0 (-(minRunning signed))) ∧
      (0 ≤ minRunning signed → maxCapitalProxy signed = minRunning signed)) ∧
    (∀ trades : List TradeRow,
      (∀ y ∈ cumsum (signedCashflow trades), 0 ≤ y) →
      exposureProxyTransform trades = 0) := by
  constructor
  · intro hne
    have habs : maxCapitalProxy signed = |minRunning signed| := by
      cases signed with
      | nil => exact absurd rfl hne
      | cons a l => rfl
    refine ⟨habs, ?_, ?_⟩
    · intro hle
      rw [habs, abs_of_nonpos hle]
      exact (max_eq_right (neg_nonneg.mpr hle)).symm
    · intro hge
      rw [habs, abs_of_nonneg hge]
  · intro trades h
    unfold exposureProxyTransform
    split
    · rfl
    · cases hc : cumsum (signedCashflow trades) with
      | nil => rfl
      | cons x xs =>
        have hx : 0 ≤ x := h x (by rw [hc]; exact List.mem_cons_self x xs)
        have hmin : 0 ≤ xs.foldl min x :=
          foldlMinLowerBound xs x hx
            (fun y hy => h y (by rw [hc]; exact List.mem_cons_of_mem x hy))
        exact max_eq_left (neg_nonpos.mpr hmin)

/-- Claim C2 counterexample: on the signed quote-value column [5] the
running cumulative sum is [5], never negative, yet the exposure proxy of
infer_initial_capital is 5, not the 0 the claimed max(0, -min) formula yields. -/
theorem C2_exposure_proxy_cex :
    (∀ y ∈ cumsum [(5 : ℚ)], 0 < y) ∧ maxCapitalProxy [(5 : ℚ)] = 5 ∧
      maxCapitalProxy [(5 : ℚ)] ≠ max 0 (-(minRunning [(5 : ℚ)])) := by
  refine ⟨?_, by norm_num [maxCapitalProxy, cumsum, cumsumFrom],
    by norm_num [maxCapitalProxy, minRunning, cumsum, cumsumFrom]⟩
  intro y hy
  have : y = 5 := by simpa [cumsum, cumsumFrom] using hy
  rw [this]; norm_num

/-- Claim C3, confirmed: whenever the reconciliation estimate
ending_equity - net_deposits - net_pnl_components is negative,
infer_initial_capital returns the exposure proxy as the estimated
beginning equity, with method max_exposure_proxy, confidence low and a
non-empty caveats list. -/
theorem C3_negative_recon_fallback (signed : List ℚ) (e n c : ℚ)
    (h : e - n - c < 0) :
    (inferInitialCapital signed e n c).estimatedBeginningEquity = maxCapitalProxy signed ∧
    (inferInitialCapital signed e n c).method = "max_exposure_proxy" ∧
    (inferInitialCapital signed e n c).confidence = "low" ∧
    (inferInitialCapital signed e n c).caveats ≠ [] := by
  unfold inferInitialCapital
  split_ifs <;> simp_all <;> split_ifs <;> simp_all

/-- Witness for C3 at the concrete input of the fallback-monotonicity
scenario of the specification: ending_equity 0, net_deposits 1000,
net_pnl_components 0 and an empty unified table. -/
theorem C3_negative_recon_fallback_witness :
    ((0 : ℚ) - 1000 - 0 < 0) ∧
    ((inferInitialCapital [] 0 1000 0).estimatedBeginningEquity = maxCapitalProxy [] ∧
     (inferInitialCapital [] 0 1000 0).method = "max_exposure_proxy" ∧
     (inferInitialCapital [] 0 1000 0).confidence = "low" ∧
     (inferInitialCapital [] 0 1000 0).caveats ≠ []) :=
  ⟨by norm_num, C3_negative_recon_fallback [] 0 1000 0 (by norm_num)⟩

/-- Claim C10, confirmed: infer_initial_capital grades confidence low
exactly with method max_exposure_proxy and medium exactly with method
reconciliation, and never returns confidence high. -/
theorem C10_confidence_method_pairing (signed : List ℚ) (e n c : ℚ) :
    ((inferInitialCapital signed e n c).confidence = "low" ↔
      (inferInitialCapital signed e n c).method = "max_exposure_proxy") ∧
    ((inferInitialCapital signed e n c).confidence = "medium" ↔
      (inferInitialCapital signed e n c).method = "reconciliation") ∧
    (inferInitialCapital signed e n c).confidence ≠ "high" := by
  unfold inferInitialCapital
  split_ifs <;> simp_all <;> split_ifs <;> simp_all

/-- When infer_initial_capital reports method reconciliation, neither
fallback replaced the estimate, so the estimate is the raw reconciliation
difference. -/
theorem inferMethodReconEst (signed : List ℚ) (e n c : ℚ)
    (h : (inferInitialCapital signed e n c).method = "reconciliation") :
    (inferInitialCapital signed e n c).estimatedBeginningEquity = e - n - c := by
  unfold inferInitialCapital at h ⊢
  split_ifs at h ⊢ <;> simp_all <;> split_ifs at h ⊢ <;> simp_all

/-- Claim C1, amended. The reconciliation-ledger values of
build_profit_report sum exactly (hence within tolerance 1e-6) to the
=EndingEquity entry whenever the beginning-equity estimate came from the
reconciliation method; when the estimate was replaced by the
exposure-proxy fallback the ledger keeps the other terms unchanged, so
its sum misses ending equity by the amount of the replacement. -/
theorem C1_recon_identity_amended (rows : List URow) (snap : SnapshotInput)
    (kw : String)
    (h : (buildProfitReport rows snap kw).init.method = "reconciliation") :
    reconSum (buildProfitReport rows snap kw).recon =
      (buildProfitReport rows snap kw).recon.endingEquity := by
  have hm : (inferInitialCapital (rows.map fun r => r.signedQuoteValue)
      snap.endingEquity (netDeposits rows)
      (pnlComponents rows snap kw)).method = "reconciliation" := h
  have hest := inferMethodReconEst (rows.map fun r => r.signedQuoteValue)
    snap.endingEquity (netDeposits rows) (pnlComponents rows snap kw) hm
  simp only [buildProfitReport, reconSum, reportInit]
  rw [hest]
  unfold pnlComponents
  ring

/-- Witness for C1 at a concrete reconciliation-method input: an empty
unified table with ending equity 50. -/
theorem C1_recon_identity_witness :
    (buildProfitReport [] c1WitSnap "LIT").init.method = "reconciliation" ∧
    reconSum (buildProfitReport [] c1WitSnap "LIT").recon =
      (buildProfitReport [] c1WitSnap "LIT").recon.endingEquity := by
  have hinit : reportInit [] c1WitSnap "LIT" =
      ⟨50, "reconciliation", "medium", [caveatNoDeposits]⟩ := by
    have hnet : netDeposits [] = 0 := by
      simp [netDeposits, sumBy, transferRowsOf]
    have hpnl : pnlComponents [] c1WitSnap "LIT" = 0 := by
      simp [pnlComponents, feesPlusFunding, tokenSalesPnl,
        tokenSaleProceeds, sumBy, c1WitSnap]
    rw [reportInit, hnet, hpnl]
    norm_num [inferInitialCapital, maxCapitalProxy, cumsum, cumsumFrom, c1WitSnap]
  have hmeth : (buildProfitReport [] c1WitSnap "LIT").init.method = "reconciliation" := by
    show (reportInit [] c1WitSnap "LIT").method = "reconciliation"
    rw [hinit]
  exact ⟨hmeth, C1_recon_identity_amended [] c1WitSnap "LIT" hmeth⟩

/-- Claim C1 counterexample: one deposit of 1000 with ending equity 0
forces the exposure-proxy fallback (reconciliation estimate -1000), and
the ledger then sums to 1000 while =EndingEquity is 0 — off by far more
than the 1e-6 tolerance. -/
theorem C1_recon_identity_cex :
    (buildProfitReport c1CexRows c1CexSnap "LIT").init.method = "max_exposure_proxy" ∧
    |reconSum (buildProfitReport c1CexRows c1CexSnap "LIT").recon -
        (buildProfitReport c1CexRows c1CexSnap "LIT").recon.endingEquity| >
      1 / 1000000 := by
  have hnet : netDeposits c1CexRows = 1000 := by
    simp [netDeposits, sumBy, transferRowsOf, c1CexRows]
  have hpnl : pnlComponents c1CexRows c1CexSnap "LIT" = 0 := by
    simp [pnlComponents, feesPlusFunding, tokenSalesPnl, tokenSaleProceeds,
      sumBy, isTokenSell, strContainsCI, charHasSeq, charStarts, c1CexRows,
      c1CexSnap]
  have hinit : reportInit c1CexRows c1CexSnap "LIT" =
      ⟨0, "max_exposure_proxy", "low", [caveatNegativeRecon]⟩ := by
    rw [reportInit, hnet, hpnl]
    norm_num [inferInitialCapital, maxCapitalProxy, cumsum, cumsumFrom,
      c1CexRows, c1CexSnap]
  have hmeth : (buildProfitReport c1CexRows c1CexSnap "LIT").init.method =
      "max_exposure_proxy" := by
    show (reportInit c1CexRows c1CexSnap "LIT").method = "max_exposure_proxy"
    rw [hinit]
  refine ⟨hmeth, ?_⟩
  have hsum : reconSum (buildProfitReport c1CexRows c1CexSnap "LIT").recon = 1000 := by
    simp only [buildProfitReport, reconSum, reportInit] at hinit ⊢
    rw [hinit, hnet]
    simp [feesPlusFunding, tokenSalesPnl, tokenSaleProceeds, sumBy,
      isTokenSell, strContainsCI, charHasSeq, charStarts, c1CexRows, c1CexSnap]
  have hend : (buildProfitReport c1CexRows c1CexSnap "LIT").recon.endingEquity = 0 := by
    simp only [buildProfitReport]
    norm_num [c1CexSnap]
  rw [hsum, hend]
  norm_num

/-- Filtering with a stronger predicate keeps at most as many elements. -/
theorem filterLenMono {α : Type} (p q : α → Bool)
    (h : ∀ a, p a = true → q a = true) :
    ∀ l : List α, (l.filter p).length ≤ (l.filter q).length := by
  intro l
  induction l with
  | nil => simp
  | cons a l ih =>
    simp only [List.filter_cons]
    cases hp : p a <;> cases hq : q a <;> simp_all <;> omega

/-- For a predicate implying another, the two filters have equal length
exactly when the stronger predicate holds wherever the weaker does. -/
theorem filterLenEqIff {α : Type} (p q : α → Bool)
    (h : ∀ a, p a = true → q a = true) :
    ∀ l : List α,
      ((l.filter p).length = (l.filter q).length) ↔
        ∀ a ∈ l, q a = true → p a = true := by
  intro l
  induction l with
  | nil => simp
  | cons a l ih =>
    have hmono := filterLenMono p q h l
    simp only [List.filter_cons, List.forall_mem_cons]
    cases hp : p a <;> cases hq : q a <;> simp_all <;> omega

/-- Core endpoints that failed were attempted. -/
theorem failedImpliesAttempted (statuses : List EndpointStatus) :
    ∀ n : String,
      (match byName statuses n with
        | some s => !s.success
        | none => false) = true →
      (byName statuses n).isSome = true := by
  intro n
  cases hb : byName statuses n <;> simp [hb]

/-- All-attempted-core-failed as the source tests it (equal filter
lengths) coincides with the pointwise statement. -/
theorem allCoreFailedIff (statuses : List EndpointStatus) :
    ((failedCore statuses).length = (attemptedCore statuses).length) ↔
      ∀ n ∈ attemptedCore statuses, n ∈ failedCore statuses := by
  unfold failedCore attemptedCore
  rw [filterLenEqIff _ _ (failedImpliesAttempted statuses) coreEndpoints]
  constructor
  · intro H n hn
    rw [List.mem_filter] at hn ⊢
    exact ⟨hn.1, H n hn.1 hn.2⟩
  · intro H n hn hq
    have := H n (List.mem_filter.mpr ⟨hn, hq⟩)
    exact (List.mem_filter.mp this).2

/-- Claim C4, confirmed: the coverage guard aborts, with the structured
details (missing core endpoints, failed core endpoints, transfer and
trade row counts), exactly when some core endpoint was never attempted
or both tables are empty and every attempted core endpoint failed; in
particular it does not abort when the single core endpoint trades
succeeded with records and a non-empty trade table while the other core
endpoints were attempted and failed, and it does abort when all core
endpoints failed and both tables are empty. -/
theorem C4_coverage_guard (statuses : List EndpointStatus)
    (transfersRows tradesRows : Nat) :
    (ensureApiCoverage statuses transfersRows tradesRows =
      if missingCore statuses ≠ [] ∨
          (transfersRows = 0 ∧ tradesRows = 0 ∧
            ∀ n ∈ attemptedCore statuses, n ∈ failedCore statuses) then
        some ⟨missingCore statuses, failedCore statuses, transfersRows, tradesRows⟩
      else none) ∧
    ensureApiCoverage coverageOkStatuses 0 3 = none ∧
    (ensureApiCoverage coverageAllFailedStatuses 0 0).isSome = true := by
  refine ⟨?_, by rfl, by rfl⟩
  unfold ensureApiCoverage
  refine if_congr ?_ rfl rfl
  rw [allCoreFailedIff]
  tauto

/-- Rows whose key reappears later are all dropped: deduplication of a
concatenation where every left row has a same-key row on the right keeps
only the survivors of the right part. -/
theorem dedupKeepLastAppend {α κ : Type} [DecidableEq κ] (key : α → κ)
    (l₂ : List α) :
    ∀ l₁ : List α, (∀ x ∈ l₁, ∃ y ∈ l₂, key y = key x) →
      dedupKeepLast key (l₁ ++ l₂) = dedupKeepLast key l₂ := by
  intro l₁
  induction l₁ with
  | nil => intro _; simp
  | cons a l₁ ih =>
    intro h
    obtain ⟨y, hy, hk⟩ := h a (List.mem_cons_self a l₁)
    have hcond : ∃ z ∈ l₁ ++ l₂, key z = key a :=
      ⟨y, List.mem_append_right l₁ hy, hk⟩
    simp only [List.cons_append, dedupKeepLast, List.append_eq]
    rw [if_pos hcond]
    exact ih (fun x hx => h x (List.mem_cons_of_mem a hx))

/-- Deduplicating a table appended to itself equals deduplicating the
table. -/
theorem dedupKeepLastSelf {α κ : Type} [DecidableEq κ] (key : α → κ)
    (l : List α) : dedupKeepLast key (l ++ l) = dedupKeepLast key l :=
  dedupKeepLastAppend key l l (fun x hx => ⟨x, hx, rfl⟩)

/-- Claim C7, confirmed: for the trade, transfer and balance-snapshot
dedup keys with last-seen-wins deduplication, appending the own
rows to itself and deduplicating yields the same table as deduplicating
the original alone. -/
theorem C7_dedup_idempotent (trades : List TradeRow)
    (transfers : List TransferRow) (balances : List BalanceRow) :
    dedupKeepLast tradeKey (trades ++ trades) = dedupKeepLast tradeKey trades ∧
    dedupKeepLast transferKey (transfers ++ transfers) =
      dedupKeepLast transferKey transfers ∧
    dedupKeepLast balanceKey (balances ++ balances) =
      dedupKeepLast balanceKey balances :=
  ⟨dedupKeepLastSelf tradeKey trades, dedupKeepLastSelf transferKey transfers,
    dedupKeepLastSelf balanceKey balances⟩

/-- The digit accumulator of Nat.toDigitsCore never shrinks. -/
theorem toDigitsCoreLenGrow (b : Nat) :
    ∀ (fuel n : Nat) (l : List Char),
      l.length ≤ (Nat.toDigitsCore b fuel n l).length := by
  intro fuel
  induction fuel with
  | zero => intro n l; simp [Nat.toDigitsCore]
  | succ fuel ih =>
    intro n l
    simp only [Nat.toDigitsCore]
    split
    · simp
    · exact le_trans (by simp) (ih (n / b) (Nat.digitChar (n % b) :: l))

/-- Nat.toDigits is never empty. -/
theorem toDigitsLenPos (b n : Nat) : 1 ≤ (Nat.toDigits b n).length := by
  unfold Nat.toDigits
  simp only [Nat.toDigitsCore]
  split
  · simp
  · exact le_trans (by simp) (toDigitsCoreLenGrow b n (n / b) [Nat.digitChar (n % b)])

/-- The decimal rendering of a natural number is never the empty
string. -/
theorem natReprNe (m : Nat) : Nat.repr m ≠ "" := by
  intro h
  have hd := congrArg String.data h
  simp only [Nat.repr, List.asString] at hd
  have hlen := toDigitsLenPos 10 m
  rw [show (Nat.toDigits 10 m) = ([] : List Char) from hd] at hlen
  simp at hlen

/-- The decimal rendering of an integer is never the empty string. -/
theorem intToStringNe (n : Int) : toString n ≠ "" := by
  show Int.repr n ≠ ""
  cases n with
  | ofNat m => exact natReprNe m
  | negSucc m =>
    show "-" ++ Nat.repr (m + 1) ≠ ""
    intro h
    have hd := congrArg String.data h
    have hsplit : ("-" ++ Nat.repr (m + 1)).data =
        '-' :: (Nat.repr (m + 1)).data := rfl
    rw [hsplit] at hd
    exact absurd hd (by simp)

/-- The truthiness-guarded index comparison of _resolve_side agrees with
the plain string comparison whenever the index is truthy or does not
render equal to the (never-empty) local index string. -/
theorem pyIdxCond (x : PyVal) (me : String) (hme : me ≠ "")
    (hx : x.truthy = true ∨ x.pyStr ≠ me) :
    (((pyOr x (PyVal.vstr "")).pyStr != "") &&
        ((pyOr x (PyVal.vstr "")).pyStr == me)) = (x.pyStr == me) := by
  have hvs : (PyVal.vstr "").pyStr = "" := rfl
  by_cases ht : x.truthy = true
  · simp only [pyOr, ht, if_pos]
    by_cases he : x.pyStr = me
    · have hne : x.pyStr ≠ "" := he ▸ hme
      simp [he, bne, hne, hme]
    · simp [he]
  · have hne : x.pyStr ≠ me := by
      rcases hx with h | h
      · exact absurd h ht
      · exact h
    simp only [pyOr, ht, Bool.false_eq_true, if_false]
    simp [hvs, hne]

/-- takerSideOf only ever resolves to sell or buy. -/
theorem takerSideOfCases (raw : RawTrade) :
    ∀ ts : String, takerSideOf raw = some ts → ts = "sell" ∨ ts = "buy" := by
  intro ts h
  unfold takerSideOf at h
  dsimp only at h
  split_ifs at h <;> simp_all

/-- Claim C5, amended. The side resolver always returns one of buy, sell
or unknown (it never raises and never returns an empty string), and it
behaves exactly as the claim describes (taker match, maker match with the
opposite side, taker-side default, unknown) whenever each account-index
field is either truthy or does not render equal to the local index: the
code passes indices through Python `or ""`, so a falsy recorded index
(such as 0) never matches, and with local account index 0 and
maker_account_index 0 the resolver returns the taker side instead of
the opposite side. -/
theorem C5_side_resolution_amended (raw : RawTrade) (acct : Int) :
    (resolveSide raw acct = "buy" ∨ resolveSide raw acct = "sell" ∨
      resolveSide raw acct = "unknown") ∧
    ((raw.taker_account_index.truthy = true ∨
        raw.taker_account_index.pyStr ≠ toString acct) →
      (raw.maker_account_index.truthy = true ∨
        raw.maker_account_index.pyStr ≠ toString acct) →
      resolveSide raw acct = resolveSideSpec raw acct) := by
  constructor
  · unfold resolveSide
    dsimp only
    cases htk : takerSideOf raw with
    | none => split_ifs with h1 h2 h3 <;> simp_all <;> tauto
    | some ts =>
      rcases takerSideOfCases raw ts htk with h | h <;> subst h <;>
        split_ifs <;> simp_all <;> tauto
  · intro hT hM
    unfold resolveSide resolveSideSpec
    dsimp only
    cases htk : takerSideOf raw with
    | none => rfl
    | some ts =>
      dsimp only
      rw [pyIdxCond raw.taker_account_index (toString acct) (intToStringNe acct) hT,
        pyIdxCond raw.maker_account_index (toString acct) (intToStringNe acct) hM]

/-- Claim C5 counterexample: with no explicit side, is_taker_ask False
(taker side buy), maker_account_index 0 and local account index 0, the
resolver returns the taker side buy, while the claim requires the
opposite side sell for a maker-index match (traced by the
specification-worded resolver). -/
theorem C5_side_resolution_cex :
    resolveSide c5CexRaw 0 = "buy" ∧ resolveSideSpec c5CexRaw 0 = "sell" := by
  constructor <;> rfl

/-- Claim C8, amended. When no explicit fee is present and the notional
is nonzero, the normalizer computes fee_quote = notional * fee_bps /
10000, but it selects the taker fee bps exactly when the resolved side is
buy or sell and the maker fee bps exactly when the side is unknown — not
by the taker or maker role of the local account (a maker-role fill whose side
resolves to buy or sell is charged the taker bps); when the selected bps
is zero the fee stays at the explicit-fee default 0. -/
theorem C8_fee_fallback_amended (raw : RawTrade) (acct : Int)
    (hfee : explicitFee raw = 0) (hnot : tradeNotional raw ≠ 0) :
    ((resolveSide raw acct = "buy" ∨ resolveSide raw acct = "sell") →
      (normalizeTrade raw acct).feeQuote =
        if takerFeeBps raw = 0 then 0
        else tradeNotional raw * takerFeeBps raw / 10000) ∧
    (resolveSide raw acct = "unknown" →
      (normalizeTrade raw acct).feeQuote =
        if makerFeeBps raw = 0 then 0
        else tradeNotional raw * makerFeeBps raw / 10000) := by
  constructor
  · intro hside
    show tradeFeeQuote raw acct = _
    unfold tradeFeeQuote
    rw [if_pos ⟨hfee, hnot⟩]
    have hb : (resolveSide raw acct == "buy" || resolveSide raw acct == "sell") = true := by
      rcases hside with h | h <;> simp [h]
    dsimp only
    rw [hb]
    by_cases hz : takerFeeBps raw = 0 <;> simp [hz, hfee]
  · intro hside
    show tradeFeeQuote raw acct = _
    unfold tradeFeeQuote
    rw [if_pos ⟨hfee, hnot⟩]
    have hb : (resolveSide raw acct == "buy" || resolveSide raw acct == "sell") = false := by
      simp [hside]
    dsimp only
    rw [hb]
    by_cases hz : makerFeeBps raw = 0 <;> simp [hz, hfee]

/-- Witness for C8 at a concrete input: no explicit fee, notional 100,
taker fee 10 bps, side resolving to the taker default buy; the fee is
100 * 10 / 10000. -/
theorem C8_fee_fallback_witness :
    explicitFee c8WitRaw = 0 ∧ tradeNotional c8WitRaw ≠ 0 ∧
    (normalizeTrade c8WitRaw 3).feeQuote =
      (if takerFeeBps c8WitRaw = 0 then 0
       else tradeNotional c8WitRaw * takerFeeBps c8WitRaw / 10000) := by
  have h1 : explicitFee c8WitRaw = 0 := rfl
  have h2 : tradeNotional c8WitRaw ≠ 0 := by
    norm_num [tradeNotional, tradeSize, tradePrice, qOrChain, c8WitRaw]
  have h3 : resolveSide c8WitRaw 3 = "buy" := rfl
  exact ⟨h1, h2, (C8_fee_fallback_amended c8WitRaw 3 h1 h2).1 (Or.inl h3)⟩

/-- Claim C8 counterexample: the local account 7 is the maker
(maker_account_index 7), the taker bought so the resolved side is the
opposite, sell; the fee fallback then uses the taker bps 10 (fee 1/10 of
notional 100) although the maker bps 5 would give 1/20. -/
theorem C8_fee_fallback_cex :
    resolveSide c8CexRaw 7 = "sell" ∧
    (normalizeTrade c8CexRaw 7).feeQuote = 1 / 10 ∧
    (100 : ℚ) * 5 / 10000 ≠ 1 / 10 := by
  refine ⟨rfl, ?_, by norm_num⟩
  show tradeFeeQuote c8CexRaw 7 = 1 / 10
  have hfee : explicitFee c8CexRaw = 0 := rfl
  have hnot : tradeNotional c8CexRaw = 100 := by
    norm_num [tradeNotional, tradeSize, tradePrice, qOrChain, c8CexRaw]
  unfold tradeFeeQuote
  rw [if_pos ⟨hfee, by rw [hnot]; norm_num⟩]
  have hb : (resolveSide c8CexRaw 7 == "buy" || resolveSide c8CexRaw 7 == "sell") = true := by
    simp [show resolveSide c8CexRaw 7 = "sell" from rfl]
  dsimp only
  rw [hb]
  have ht : takerFeeBps c8CexRaw = 10 := rfl
  rw [if_pos (by rw [ht]; norm_num), hnot, ht]
  norm_num

/-- Every candidate non-negative makes the ordered-fallback lookup
non-negative. -/
theorem qOrChainNonneg :
    ∀ l : List (Option ℚ), (∀ o ∈ l, ∀ v : ℚ, o = some v → 0 ≤ v) →
      0 ≤ qOrChain l := by
  intro l
  induction l with
  | nil => intro _; norm_num [qOrChain]
  | cons o rest ih =>
    intro h
    cases o with
    | none =>
      simp only [qOrChain]
      exact ih (fun o ho v hv => h o (List.mem_cons_of_mem _ ho) v hv)
    | some v =>
      have hv : 0 ≤ v := h (some v) (List.mem_cons_self _ _) v rfl
      by_cases hz : v = 0
      · simp only [qOrChain, if_pos hz]
        exact ih (fun o ho w hw => h o (List.mem_cons_of_mem _ ho) w hw)
      · simp only [qOrChain, if_neg hz]
        exact hv

/-- Claim C9, amended. Normalized trade size and notional are
non-negative for every raw input (absolute values are applied), and a
normalized transfer amount is non-negative whenever every raw amount
candidate is non-negative — but _pick_amount takes the first nonzero raw
amount unchanged, so a negative raw amount passes through; direction is
carried by the event subtype. -/
theorem C9_nonneg_amended :
    (∀ (raw : RawTrade) (acct : Int),
      0 ≤ (normalizeTrade raw acct).size ∧
        0 ≤ (normalizeTrade raw acct).notionalQuote) ∧
    (∀ raw : RawTransfer,
      (∀ o ∈ amountCandidates raw, ∀ v : ℚ, o = some v → 0 ≤ v) →
      0 ≤ (normalizeTransfer raw "transfer").amountQuote) := by
  constructor
  · intro raw acct
    exact ⟨abs_nonneg _, abs_nonneg _⟩
  · intro raw h
    show 0 ≤ pickAmount raw
    unfold pickAmount
    exact qOrChainNonneg _ h

/-- Claim C9 counterexample: a deposit whose raw amount field is -5 is
normalized to a transfer with amount_quote -5, a negative canonical
value. -/
theorem C9_transfer_amount_cex :
    (normalizeTransfer c9CexRaw "deposit").eventType = "deposit" ∧
    (normalizeTransfer c9CexRaw "deposit").amountQuote < 0 := by
  constructor
  · rfl
  · show pickAmount c9CexRaw < 0
    norm_num [pickAmount, amountCandidates, blockAmountFields, qOrChain, c9CexRaw]
